import Mathlib

/-!
Verification of the Pixel-physics-game simulation core.

This file gives a shallow embedding, in Lean 4, of the parts of the
repository that the specification makes claims about:

* the per-cell GLSL update rule of `initializeUpdateProgram`
  (src/rendering/rendering.js, embedded in the input.js bundle of the repository);
* the seeded initialisation `initializeSimulation` and the `mulberry32`
  PRNG (src/simulation/simulation.js);
* the fixed-timestep catch-up loop, year rollover and buffer swap of
  `simulate` (src/main.js, which ships several revisions of the loop);
* the material-classification cascade `getMaterialName` (src/main.js);
* the RLE codec (src/utils/compression.js) and the Float32Array /
  binary-string codec (src/utils/base64.js).

GLSL/JS floats are modelled as exact rationals (`ℚ`); 32-bit integer
operations of the PRNG are modelled on `ℕ` with explicit reduction
`% 2 ^ 32` wherever JavaScript coerces to 32-bit integers.
-/

namespace PixelPhysics

/-- JS `clamp` from src/utils/utils.js:
`Math.max(min, Math.min(max, value))`. -/
def clamp (value lo hi : ℚ) : ℚ := max lo (min hi value)

/-- GLSL `clamp(x, lo, hi)`, which is `min(max(x, lo), hi)`. -/
def glslClamp (x lo hi : ℚ) : ℚ := min (max x lo) hi

/-- Attribute vector of one grid cell: the RGBA texel
(density, temperature, magic, organic) of the state texture. -/
structure AttributeVector where
  density : ℚ
  temperature : ℚ
  magic : ℚ
  organic : ℚ
deriving DecidableEq, Repr

/-- The fragment shader body of `initializeUpdateProgram`
(src/rendering/rendering.js): reads only the own texel of the cell, `state`,
applies gravity to density and fixed drifts to the other channels,
each result clamped to [0,1].  `0.01 = 1/100`, `0.005 = 1/200`,
`0.001 = 1/1000`, `0.0005 = 1/2000`. -/
def updateShader (state : AttributeVector) (gravity : ℚ) : AttributeVector :=
  { density := glslClamp (state.density + gravity * (1 / 100)) 0 1
    temperature := glslClamp (state.temperature - 1 / 200) 0 1
    magic := glslClamp (state.magic + 1 / 1000) 0 1
    organic := glslClamp (state.organic + 1 / 2000) 0 1 }

/-- A grid of attribute vectors, indexed by texel coordinates.  The update
pass runs the fragment shader at every texel of the target, each fragment
sampling only its own coordinate `v_uv` from `u_currentState`. -/
def gridUpdate (gravity : ℚ) (g : ℕ → ℕ → AttributeVector) :
    ℕ → ℕ → AttributeVector :=
  fun x y => updateShader (g x y) gravity

/-- All four channels of a vector lie in [0,1]. -/
def inUnitRange (v : AttributeVector) : Prop :=
  (0 ≤ v.density ∧ v.density ≤ 1) ∧ (0 ≤ v.temperature ∧ v.temperature ≤ 1) ∧
    (0 ≤ v.magic ∧ v.magic ≤ 1) ∧ (0 ≤ v.organic ∧ v.organic ≤ 1)

instance (v : AttributeVector) : Decidable (inUnitRange v) := by
  unfold inUnitRange; infer_instance

/-- Function `getMaterialName` from src/main.js: first-match priority cascade. -/
def getMaterialName (density temperature magic organic : ℚ) : String :=
  if organic > 1 / 2 then "Organic"
  else if magic > 3 / 10 then "Magic"
  else if density > 7 / 10 then "Metal"
  else if temperature > 1 / 2 then "Hot"
  else "Unknown"

/-! ### RLE codec (src/utils/compression.js) -/

/-- The `for` loop of `rleCompress`: `rest` is the unprocessed tail of the
input, `prev`/`count` the pending run, `acc` the runs already emitted.
When an element equals `prev` the count is incremented and, on reaching
255, the run is flushed and the count reset to 0; on a differing element
the pending run (if non-empty) is flushed and a new run starts. -/
def rleCompressLoop : List ℤ → ℤ → ℕ → List (ℤ × ℕ) → List (ℤ × ℕ)
  | [], prev, count, acc =>
      if count > 0 then acc ++ [(prev, count)] else acc
  | x :: xs, prev, count, acc =>
      if x = prev then
        if count + 1 = 255 then rleCompressLoop xs prev 0 (acc ++ [(prev, 255)])
        else rleCompressLoop xs prev (count + 1) acc
      else
        rleCompressLoop xs x 1 (if count > 0 then acc ++ [(prev, count)] else acc)

/-- Function `rleCompress`: empty input compresses to the empty list; otherwise
the loop starts with `prev = data[0]`, `count = 1`. -/
def rleCompress : List ℤ → List (ℤ × ℕ)
  | [] => []
  | x :: xs => rleCompressLoop xs x 1 []

/-- The plain JS array `decompressed` built by the loop of `rleDecompress`:
each `[value, count]` pair expands to `count` copies of `value`, in
order, before the final conversion to a Float32Array. -/
def rleDecompressRaw (compressedData : List (ℤ × ℕ)) : List ℤ :=
  compressedData.flatMap fun vc => List.replicate vc.2 vc.1

/-- A value stored in a Float32Array cell fed from an integer: either a
finite float32 value (an integer, since integral inputs stay integral
after rounding) or an infinity produced by exponent overflow.  Integral
inputs cannot produce NaN. -/
inductive F32 where
  | finite (v : ℤ)
  | posInf
  | negInf
deriving DecidableEq, Repr

/-- Rounds `m` to the nearest multiple of `unit` (`unit > 0`), ties to the
even multiple — the IEEE-754 round-to-nearest-even rule on a magnitude. -/
def roundToMultiple (m unit : ℕ) : ℕ :=
  let q := m / unit
  let r := m % unit
  if 2 * r < unit then q * unit
  else if 2 * r > unit then (q + 1) * unit
  else (if q % 2 = 0 then q else q + 1) * unit

/-- Unit in the last place of a float32 at magnitude `m`: integers below
`2 ^ 24` are exact (unit 1); above, the 24-bit significand spaces values
`2 ^ (log2 m - 23)` apart. -/
def f32ulp (m : ℕ) : ℕ := 2 ^ (Nat.log2 m - 23)

/-- The float32 value of an integer-valued JS Number, as produced by
storing it into a Float32Array: round the magnitude to 24 significant
bits (nearest, ties to even); a rounded magnitude reaching `2 ^ 128`
overflows to an infinity. -/
def toFloat32 (n : ℤ) : F32 :=
  if roundToMultiple n.natAbs (f32ulp n.natAbs) ≥ 2 ^ 128 then
    (if n < 0 then F32.negInf else F32.posInf)
  else
    F32.finite (if n < 0 then -(roundToMultiple n.natAbs (f32ulp n.natAbs) : ℤ)
      else (roundToMultiple n.natAbs (f32ulp n.natAbs) : ℤ))

/-- Function `rleDecompress`: expands each `[value, count]` pair to `count`
copies of `value` in a plain JS array, then returns
`new Float32Array(decompressed)`, which converts every element to
float32. -/
def rleDecompress (compressedData : List (ℤ × ℕ)) : List F32 :=
  (rleDecompressRaw compressedData).map toFloat32

/-! ### Float32Array / binary-string codec (src/utils/base64.js)

A `Float32Array` is modelled as the list of the 32-bit IEEE-754 bit
patterns of its elements (each a `ℕ` below `2 ^ 32`); the binary string is
modelled as the list of its character codes (bytes).  Reading an element
`floatArray[i]` yields a JavaScript Number; all NaN bit patterns read as
the single Number value NaN, and `new Float32Array([NaN])` stores the
canonical quiet NaN `0x7FC00000` (the implementation-defined NaN pattern
used by the mainstream engines).  Non-NaN float32 values round-trip
through a Number bit-exactly.  `reFloat32` models this element read/write;
byte order is the little-endian layout of the platform, used identically in
both directions. -/

/-- Bit pattern of a float32 NaN: exponent bits all ones, mantissa
non-zero. -/
def isNaN32 (w : ℕ) : Bool :=
  (w / 2 ^ 23) % 256 == 255 && w % 2 ^ 23 != 0

/-- The canonical quiet NaN bit pattern `0x7FC00000`. -/
def canonicalNaN32 : ℕ := 0x7FC00000

/-- Models `new Float32Array([floatArray[i]])[0]` at the bit level: NaN
payloads collapse to the canonical quiet NaN, every other pattern is
preserved. -/
def reFloat32 (w : ℕ) : ℕ :=
  if isNaN32 w then canonicalNaN32 else w % 2 ^ 32

/-- The four bytes of a 32-bit word, little-endian. -/
def toBytes32 (w : ℕ) : List ℕ :=
  [w % 256, w / 256 % 256, w / 256 ^ 2 % 256, w / 256 ^ 3 % 256]

/-- Function `float32ArrayToBinaryString`: element by element, re-store the float in a
one-element Float32Array, view its 4 bytes, and append one character per
byte (`String.fromCharCode(byte)`). -/
def float32ArrayToBinaryString (floatArray : List ℕ) : List ℕ :=
  floatArray.flatMap fun w => toBytes32 (reFloat32 w)

/-- Function `binaryStringToFloat32Array`: copy the character codes into a byte
buffer and reinterpret it as a Float32Array (4 bytes per element,
little-endian).  The source throws on a byte length that is not a
multiple of 4; such a tail is never produced by the serializer. -/
def binaryStringToFloat32Array : List ℕ → List ℕ
  | b0 :: b1 :: b2 :: b3 :: rest =>
      (b0 % 256 + 256 * (b1 % 256) + 256 ^ 2 * (b2 % 256) + 256 ^ 3 * (b3 % 256))
        :: binaryStringToFloat32Array rest
  | _ => []

/-! ### Mulberry32 PRNG and `initializeSimulation`
(src/simulation/simulation.js)

The closure state `a` is a JavaScript Number that only ever grows by the
odd constant `0x6D2B79F5` per call; it is modelled as an exact `ℕ` (safe
while below `2 ^ 53`, which holds throughout any 500 × 500
initialisation).  Every bitwise operation coerces to 32 bits, modelled by
explicit `% 2 ^ 32`; `Math.imul` is multiplication `% 2 ^ 32` on bit
patterns; `>>> k` is a right shift of the 32-bit pattern. -/

/-- The additive constant `0x6D2B79F5` of Mulberry32. -/
def mulberryC : ℕ := 0x6D2B79F5

/-- Models `t ^= t + Math.imul(t ^ (t >>> 7), t | 61)` on the 32-bit
pattern: the inner `imul` reduces `% 2 ^ 32`, the addition is exact and
the xor coerces the sum back to 32 bits. -/
def mulberryXorStep (t1 : ℕ) : ℕ :=
  t1 ^^^ ((t1 + ((t1 ^^^ (t1 >>> 7)) * (t1 ||| 61)) % 2 ^ 32) % 2 ^ 32)

/-- The Mulberry32 mixing function applied to the (already incremented)
state `a`, producing the float output `((t ^ (t >>> 14)) >>> 0) / 2^32`:
`t = a | 0`; `t = imul(t ^ (t >>> 15), t | 1)`;
`t ^= t + imul(t ^ (t >>> 7), t | 61)`. -/
def mulberryMix (a : ℕ) : ℚ :=
  let t0 := a % 2 ^ 32
  let t1 := ((t0 ^^^ (t0 >>> 15)) * (t0 ||| 1)) % 2 ^ 32
  let t2 := mulberryXorStep t1
  ((t2 ^^^ (t2 >>> 14)) % 2 ^ 32 : ℕ) / (4294967296 : ℚ)

/-- One call of the closure returned by `mulberry32`: increment the state by
`mulberryC`, then mix the new state into the output. -/
def mulberry32Next (a : ℕ) : ℕ × ℚ :=
  (a + mulberryC, mulberryMix (a + mulberryC))

/-- The `n`-th output (0-indexed) of the stream started from `seed`: the
state before the `n`-th call is `seed + n * mulberryC`, so the output mixes
`seed + (n + 1) * mulberryC`. -/
def randStream (seed : ℕ) (n : ℕ) : ℚ :=
  mulberryMix (seed + (n + 1) * mulberryC)

/-- The cell-filling loop of `initializeSimulation`: for each of the `k`
remaining cells draw three consecutive PRNG values and set
`density = clamp(rand(), 0, 1)`, `temperature = clamp(rand(), 0, 1)`,
`magic = clamp(rand() * 0.5, 0, 1)`, `organic = clamp(0, 0, 1)`. -/
def initCells : ℕ → ℕ → List AttributeVector
  | _, 0 => []
  | a, k + 1 =>
      let s1 := mulberry32Next a
      let s2 := mulberry32Next s1.1
      let s3 := mulberry32Next s2.1
      { density := clamp s1.2 0 1
        temperature := clamp s2.2 0 1
        magic := clamp (s3.2 * (1 / 2)) 0 1
        organic := clamp 0 0 1 } :: initCells s3.1 k

/-- Function `initializeSimulation`: fills the
`width * height` cells, row-major, from the Mulberry32 stream seeded by
`seed`.  The texture upload is device I/O; the grid contents it uploads
are the list built here. -/
def initializeSimulation (width height seed : ℕ) : List AttributeVector :=
  initCells seed (width * height)

/-! ### Fixed-timestep loop, year rollover and buffer swap (src/main.js)

Wall-clock times are modelled as exact rationals.  The state record keeps
the fields of src/main.js that the fixed-timestep section of `simulate`
reads or writes (`lastTickTime`, `ticksIntoYear`, `currentYear`,
`ticsCount`) plus ghost instrumentation: the double-buffer role flag
(`activeIsA`, the explicit form of which texture the read framebuffer is
bound to after the `[currentState, nextState] = [nextState, currentState]`
exchange), a monotone count of swaps performed (`swapCount`), a monotone
count of `performSimulationStep` invocations (`attempts`), and a count of
errors logged by the frame-level `catch` (`errorsLogged`).  The per-second
FPS/TPS display blocks of `simulate` touch none of these fields except the
display reset of `ticsCount`, which lies outside the fixed-timestep
section modelled here.

The repository file src/main.js contains several revisions of `simulate`.
The primary revision (lines 302-363) swaps the buffers inside the catch-up
loop, once per tick; the revisions at lines 701-759 and 1410-1468 run the
same catch-up loop but perform one single swap after the loop, once per
frame.  Both are embedded (`simulateFrame` and `simulateFrameV2`).

Exceptions: `performSimulationStep` is a GPU call that the spec allows to
fail; a frame function is therefore parameterised by a schedule
`failsAt : ℕ → Bool` telling whether the `n`-th update invocation (counted
by `attempts`) throws.  In the source the `try`/`catch` wraps the whole
body of `simulate`; a throw aborts the catch-up loop (and the render/UI
tail), is logged, and `requestAnimationFrame` outside the `try` keeps the
outer loop alive. -/

/-- TICK_INTERVAL = 1000 / TICK_RATE with TICK_RATE = 60. -/
def TICK_INTERVAL : ℚ := 1000 / 60

/-- The SEASONS table: four seasons of 648000 ticks each. -/
def SEASONS : List (String × ℕ) :=
  [("Spring", 648000), ("Summer", 648000), ("Autumn", 648000), ("Winter", 648000)]

/-- SEASON_TOTAL_DURATION: the reduce-sum of the season durations. -/
def SEASON_TOTAL_DURATION : ℕ := (SEASONS.map Prod.snd).sum

/-- State of the simulation loop (simulation-relevant fields of src/main.js
plus ghost counters, see the section comment). -/
structure SimState where
  lastTickTime : ℚ
  ticksIntoYear : ℕ
  currentYear : ℕ
  ticsCount : ℕ
  activeIsA : Bool
  swapCount : ℕ
  attempts : ℕ
  errorsLogged : ℕ
deriving DecidableEq, Repr

/-- Per-tick year accounting: `ticksIntoYear++`, and on reaching
SEASON_TOTAL_DURATION subtract it and `currentYear++`. -/
def stepYear (s : SimState) : SimState :=
  if s.ticksIntoYear + 1 ≥ SEASON_TOTAL_DURATION then
    { s with ticksIntoYear := s.ticksIntoYear + 1 - SEASON_TOTAL_DURATION
             currentYear := s.currentYear + 1 }
  else
    { s with ticksIntoYear := s.ticksIntoYear + 1 }

/-- The buffer-role exchange `[currentState, nextState] = [nextState,
currentState]` plus re-binding of the read framebuffer: flips `activeIsA`
and counts one swap. -/
def swapBuffers (s : SimState) : SimState :=
  { s with activeIsA := !s.activeIsA, swapCount := s.swapCount + 1 }

/-- Body of the while loop of the primary `simulate` (src/main.js lines
325-347) for a successful tick: run `performSimulationStep` (one attempt),
`lastTickTime += TICK_INTERVAL`, `ticsCount++`, year accounting, then swap
the buffers. -/
def doTick (s : SimState) : SimState :=
  swapBuffers (stepYear
    { s with attempts := s.attempts + 1
             lastTickTime := s.lastTickTime + TICK_INTERVAL
             ticsCount := s.ticsCount + 1 })

/-- Body of the while loop of the later revisions (src/main.js lines
724-738 and 1433-1447): same accounting, but no swap inside the loop. -/
def doTickNoSwap (s : SimState) : SimState :=
  stepYear
    { s with attempts := s.attempts + 1
             lastTickTime := s.lastTickTime + TICK_INTERVAL
             ticsCount := s.ticsCount + 1 }

/-- Number of iterations of `while (currentTime - lastTickTime >=
TICK_INTERVAL)` when every tick succeeds: the integer part of the lag in
units of TICK_INTERVAL. -/
def numPendingTicks (currentTime : ℚ) (s : SimState) : ℕ :=
  (⌊(currentTime - s.lastTickTime) / TICK_INTERVAL⌋).toNat

/-- The catch-up while loop, by iteration count: at each iteration, if the
scheduled `performSimulationStep` invocation throws, the loop aborts with
the exception flag set (the attempt happened, nothing else of the body
ran); otherwise the body `body` runs and the loop continues. -/
def tickLoopGo (body : SimState → SimState) (failsAt : ℕ → Bool) :
    ℕ → SimState → SimState × Bool
  | 0, s => (s, false)
  | n + 1, s =>
      if failsAt s.attempts then ({ s with attempts := s.attempts + 1 }, true)
      else tickLoopGo body failsAt n (body s)

/-- The catch-up while loop of `simulate`, entered with wall time
`currentTime`: runs until `currentTime - lastTickTime < TICK_INTERVAL` or
an exception aborts it.  (`tickLoop_eq` below proves this definition
satisfies the guard-and-unfold equation of the source while loop.) -/
def tickLoop (body : SimState → SimState) (failsAt : ℕ → Bool)
    (currentTime : ℚ) (s : SimState) : SimState × Bool :=
  tickLoopGo body failsAt (numPendingTicks currentTime s) s

/-- One call of the primary `simulate` (src/main.js lines 302-363),
restricted to the simulation state: the catch-up loop with per-tick swap;
a thrown exception is caught by the frame-level `catch`, which logs it
(the render pass and UI update it also skips are stateless here).  The
function always returns — `requestAnimationFrame(simulate)` sits outside
the `try`, so the outer loop always continues. -/
def simulateFrame (failsAt : ℕ → Bool) (currentTime : ℚ) (s : SimState) :
    SimState :=
  if (tickLoop doTick failsAt currentTime s).2 then
    { (tickLoop doTick failsAt currentTime s).1 with
        errorsLogged := (tickLoop doTick failsAt currentTime s).1.errorsLogged + 1 }
  else (tickLoop doTick failsAt currentTime s).1

/-- One call of the later-revision `simulate` (src/main.js lines 1410-1468
and 701-759): the catch-up loop without swap, then — still inside the
`try` — one single buffer swap per frame; an exception skips that swap and
is logged by the frame-level `catch`. -/
def simulateFrameV2 (failsAt : ℕ → Bool) (currentTime : ℚ) (s : SimState) :
    SimState :=
  if (tickLoop doTickNoSwap failsAt currentTime s).2 then
    { (tickLoop doTickNoSwap failsAt currentTime s).1 with
        errorsLogged := (tickLoop doTickNoSwap failsAt currentTime s).1.errorsLogged + 1 }
  else swapBuffers (tickLoop doTickNoSwap failsAt currentTime s).1

/-- An advance call in which no update invocation throws. -/
def advance (currentTime : ℚ) (s : SimState) : SimState :=
  simulateFrame (fun _ => false) currentTime s

/-- The never-throwing variant of `simulateFrameV2`. -/
def advanceV2 (currentTime : ℚ) (s : SimState) : SimState :=
  simulateFrameV2 (fun _ => false) currentTime s

/-- The clock state right after initialisation: `lastTickTime` set to the
current wall time `t0`, counters zero, A initially current. -/
def freshState (t0 : ℚ) : SimState :=
  { lastTickTime := t0, ticksIntoYear := 0, currentYear := 0, ticsCount := 0
    activeIsA := true, swapCount := 0, attempts := 0, errorsLogged := 0 }

/-! ## Helper lemmas -/

theorem glslClamp_nonneg (x : ℚ) : 0 ≤ glslClamp x 0 1 :=
  le_min (le_max_right x 0) (by norm_num)

theorem glslClamp_le_one (x : ℚ) : glslClamp x 0 1 ≤ 1 := min_le_right _ _

theorem updateShader_inUnitRange (cell : AttributeVector) (gravity : ℚ) :
    inUnitRange (updateShader cell gravity) := by
  refine ⟨⟨?_, ?_⟩, ⟨?_, ?_⟩, ⟨?_, ?_⟩, ⟨?_, ?_⟩⟩ <;>
    first
      | exact glslClamp_nonneg _
      | exact glslClamp_le_one _

theorem clamp_nonneg (x : ℚ) : 0 ≤ clamp x 0 1 := le_max_left 0 (min 1 x)

theorem clamp_le_one (x : ℚ) : clamp x 0 1 ≤ 1 :=
  max_le (by norm_num) (min_le_left 1 x)

/-! ## C1: per-cell update rule -/

/-- C1.  One application of the per-cell update rule reads only the own
current vector of the cell (no neighbouring cell: two grids agreeing at
`(x, y)` update identically there) and returns exactly
`(clamp(density + gravity*0.01, 0, 1), clamp(temperature - 0.005, 0, 1),
clamp(magic + 0.001, 0, 1), clamp(organic + 0.0005, 0, 1))`. -/
theorem claim_C1_update_rule (g g' : ℕ → ℕ → AttributeVector) (gravity : ℚ)
    (x y : ℕ) (hagree : g x y = g' x y) :
    gridUpdate gravity g x y = gridUpdate gravity g' x y ∧
    gridUpdate gravity g x y =
      { density := glslClamp ((g x y).density + gravity * (1 / 100)) 0 1
        temperature := glslClamp ((g x y).temperature - 1 / 200) 0 1
        magic := glslClamp ((g x y).magic + 1 / 1000) 0 1
        organic := glslClamp ((g x y).organic + 1 / 2000) 0 1 } := by
  constructor
  · simp [gridUpdate, hagree]
  · rfl

/-- Witness for C1 at the constant zero grid with gravity 1. -/
theorem claim_C1_update_rule_witness :
    gridUpdate 1 (fun _ _ => ⟨0, 0, 0, 0⟩) 0 0 =
        gridUpdate 1 (fun _ _ => ⟨0, 0, 0, 0⟩) 0 0 ∧
    gridUpdate 1 (fun _ _ => ⟨0, 0, 0, 0⟩) 0 0 =
      { density := glslClamp (((fun (_ _ : ℕ) => (⟨0, 0, 0, 0⟩ : AttributeVector)) 0 0).density + 1 * (1 / 100)) 0 1
        temperature := glslClamp (((fun (_ _ : ℕ) => (⟨0, 0, 0, 0⟩ : AttributeVector)) 0 0).temperature - 1 / 200) 0 1
        magic := glslClamp (((fun (_ _ : ℕ) => (⟨0, 0, 0, 0⟩ : AttributeVector)) 0 0).magic + 1 / 1000) 0 1
        organic := glslClamp (((fun (_ _ : ℕ) => (⟨0, 0, 0, 0⟩ : AttributeVector)) 0 0).organic + 1 / 2000) 0 1 } :=
  claim_C1_update_rule (fun _ _ => ⟨0, 0, 0, 0⟩) (fun _ _ => ⟨0, 0, 0, 0⟩) 1 0 0 rfl

/-! ## C2: per-channel clamp invariant -/

/-- C2.  Every channel of the updated vector lies in [0,1], after any
positive number of ticks, whatever the input vector; and an input at the
lower temperature boundary stays exactly at 0. -/
theorem claim_C2_clamp_invariant (cell : AttributeVector) (gravity : ℚ) (n : ℕ) :
    inUnitRange (updateShader cell gravity) ∧
    (1 ≤ n → inUnitRange ((fun c => updateShader c gravity)^[n] cell)) ∧
    (cell.temperature = 0 → (updateShader cell gravity).temperature = 0) := by
  refine ⟨updateShader_inUnitRange cell gravity, ?_, ?_⟩
  · intro hn
    obtain ⟨m, rfl⟩ := Nat.exists_eq_add_of_le hn
    rw [Nat.add_comm, Function.iterate_succ_apply']
    exact updateShader_inUnitRange _ _
  · intro h0
    simp only [updateShader, h0]
    norm_num [glslClamp]

/-- Witness for C2 at the zero vector, zero gravity, one tick. -/
theorem claim_C2_clamp_invariant_witness :
    inUnitRange (updateShader ⟨0, 0, 0, 0⟩ 0) ∧
    inUnitRange ((fun c => updateShader c 0)^[1] ⟨0, 0, 0, 0⟩) ∧
    (updateShader ⟨0, 0, 0, 0⟩ 0).temperature = 0 :=
  ⟨(claim_C2_clamp_invariant ⟨0, 0, 0, 0⟩ 0 1).1,
   (claim_C2_clamp_invariant ⟨0, 0, 0, 0⟩ 0 1).2.1 (by norm_num),
   (claim_C2_clamp_invariant ⟨0, 0, 0, 0⟩ 0 1).2.2 rfl⟩

/-! ## C8: material classification cascade -/

/-- C8.  The classification is a strict first-match priority cascade
(organic, then magic, then density, then temperature, else Unknown), with
the three concrete classifications of the spec. -/
theorem claim_C8_material_cascade :
    (∀ d t m o : ℚ, o > 1 / 2 → getMaterialName d t m o = "Organic") ∧
    (∀ d t m o : ℚ, ¬o > 1 / 2 → m > 3 / 10 → getMaterialName d t m o = "Magic") ∧
    (∀ d t m o : ℚ, ¬o > 1 / 2 → ¬m > 3 / 10 → d > 7 / 10 →
      getMaterialName d t m o = "Metal") ∧
    (∀ d t m o : ℚ, ¬o > 1 / 2 → ¬m > 3 / 10 → ¬d > 7 / 10 → t > 1 / 2 →
      getMaterialName d t m o = "Hot") ∧
    (∀ d t m o : ℚ, ¬o > 1 / 2 → ¬m > 3 / 10 → ¬d > 7 / 10 → ¬t > 1 / 2 →
      getMaterialName d t m o = "Unknown") ∧
    getMaterialName (8 / 10) (6 / 10) 0 0 = "Metal" ∧
    getMaterialName 0 0 0 (6 / 10) = "Organic" ∧
    getMaterialName (1 / 10) (1 / 10) (1 / 10) (1 / 10) = "Unknown" := by
  refine ⟨?_, ?_, ?_, ?_, ?_, ?_, ?_, ?_⟩
  · intro d t m o h1
    unfold getMaterialName
    rw [if_pos h1]
  · intro d t m o h1 h2
    unfold getMaterialName
    rw [if_neg h1, if_pos h2]
  · intro d t m o h1 h2 h3
    unfold getMaterialName
    rw [if_neg h1, if_neg h2, if_pos h3]
  · intro d t m o h1 h2 h3 h4
    unfold getMaterialName
    rw [if_neg h1, if_neg h2, if_neg h3, if_pos h4]
  · intro d t m o h1 h2 h3 h4
    unfold getMaterialName
    rw [if_neg h1, if_neg h2, if_neg h3, if_neg h4]
  · norm_num [getMaterialName]
  · norm_num [getMaterialName]
  · norm_num [getMaterialName]

/-- Witness for C8: each cascade branch applied at a concrete input. -/
theorem claim_C8_material_cascade_witness :
    getMaterialName 0 0 0 1 = "Organic" ∧
    getMaterialName 0 0 1 0 = "Magic" ∧
    getMaterialName 1 0 0 0 = "Metal" ∧
    getMaterialName 0 1 0 0 = "Hot" ∧
    getMaterialName 0 0 0 0 = "Unknown" :=
  ⟨claim_C8_material_cascade.1 0 0 0 1 (by norm_num),
   claim_C8_material_cascade.2.1 0 0 1 0 (by norm_num) (by norm_num),
   claim_C8_material_cascade.2.2.1 1 0 0 0 (by norm_num) (by norm_num) (by norm_num),
   claim_C8_material_cascade.2.2.2.1 0 1 0 0 (by norm_num) (by norm_num) (by norm_num)
     (by norm_num),
   claim_C8_material_cascade.2.2.2.2.1 0 0 0 0 (by norm_num) (by norm_num) (by norm_num)
     (by norm_num)⟩

/-! ## C9: RLE round-trip -/

theorem rleDecompressRaw_append (a b : List (ℤ × ℕ)) :
    rleDecompressRaw (a ++ b) = rleDecompressRaw a ++ rleDecompressRaw b := by
  simp [rleDecompressRaw]

theorem rleCompressLoop_cons (x : ℤ) (xs : List ℤ) (prev : ℤ) (count : ℕ)
    (acc : List (ℤ × ℕ)) :
    rleCompressLoop (x :: xs) prev count acc =
      if x = prev then
        if count + 1 = 255 then rleCompressLoop xs prev 0 (acc ++ [(prev, 255)])
        else rleCompressLoop xs prev (count + 1) acc
      else
        rleCompressLoop xs x 1 (if count > 0 then acc ++ [(prev, count)] else acc) :=
  rfl

/-- Loop invariant of the compressor: what has already been emitted, plus
the pending run, plus the unread input, expands (before the float32
conversion) to the full input. -/
theorem rleCompressLoop_decompress (xs : List ℤ) :
    ∀ (prev : ℤ) (count : ℕ) (acc : List (ℤ × ℕ)),
      rleDecompressRaw (rleCompressLoop xs prev count acc) =
        rleDecompressRaw acc ++ List.replicate count prev ++ xs := by
  induction xs with
  | nil =>
      intro prev count acc
      by_cases h : count > 0
      · simp [rleCompressLoop, h, rleDecompressRaw_append, rleDecompressRaw]
      · simp_all [rleCompressLoop, rleDecompressRaw]
  | cons x xs ih =>
      intro prev count acc
      rw [rleCompressLoop_cons]
      by_cases hx : x = prev
      · subst hx
        rw [if_pos rfl]
        by_cases h255 : count + 1 = 255
        · rw [if_pos h255, ih, rleDecompressRaw_append, ← h255]
          simp only [rleDecompressRaw, List.flatMap_cons, List.flatMap_nil,
            List.append_nil, List.replicate_zero]
          rw [List.replicate_succ' count x]
          simp [List.append_assoc]
        · rw [if_neg h255, ih, List.replicate_succ' count x]
          simp [List.append_assoc]
      · rw [if_neg hx, ih]
        by_cases h : count > 0
        · simp [h, rleDecompressRaw_append, rleDecompressRaw]
        · have hc : count = 0 := by omega
          subst hc
          simp [rleDecompressRaw]

theorem roundToMultiple_one (m : ℕ) : roundToMultiple m 1 = m := by
  unfold roundToMultiple
  norm_num [Nat.mod_one]

/-- Integers of magnitude below `2 ^ 24` are exactly representable:
the float32 conversion fixes them. -/
theorem toFloat32_small (v : ℤ) (h : v.natAbs < 2 ^ 24) :
    toFloat32 v = F32.finite v := by
  have hulp : f32ulp v.natAbs = 1 := by
    unfold f32ulp
    have hlog : Nat.log2 v.natAbs - 23 = 0 := by
      by_cases h0 : v.natAbs = 0
      · rw [h0]
        norm_num [Nat.log2]
      · have h24 : Nat.log2 v.natAbs < 24 := (Nat.log2_lt h0).mpr h
        omega
    rw [hlog, pow_zero]
  unfold toFloat32
  rw [hulp, roundToMultiple_one]
  rw [if_neg (show ¬v.natAbs ≥ 2 ^ 128 by omega)]
  by_cases hneg : v < 0
  · rw [if_pos hneg]
    congr 1
    omega
  · rw [if_neg hneg]
    congr 1
    omega

/-- The float32 conversion rounds `2 ^ 24 + 1` down to `2 ^ 24` (ties to
the even 24-bit significand). -/
theorem toFloat32_16777217 : toFloat32 (16777217 : ℤ) = F32.finite 16777216 := by
  have hlog : Nat.log2 16777217 = 24 := by
    rw [Nat.log2_eq_log_two]
    exact Nat.log_eq_of_pow_le_of_lt_pow (by norm_num) (by norm_num)
  have hpow : (2 : ℕ) ^ (24 - 23) = 2 := by norm_num
  have hulp : f32ulp 16777217 = 2 := by
    rw [f32ulp, hlog, hpow]
  have hround : roundToMultiple 16777217 2 = 16777216 := by
    norm_num [roundToMultiple]
  have hbig : ¬(16777216 : ℕ) ≥ 2 ^ 128 := by norm_num
  have hneg : ¬(16777217 : ℤ) < 0 := by norm_num
  unfold toFloat32
  rw [show ((16777217 : ℤ)).natAbs = 16777217 from rfl, hulp, hround,
    if_neg hbig, if_neg hneg]
  norm_num

/-- The expansion loop alone inverts the compressor exactly, for every
sequence — the loss is confined to the final float32 conversion. -/
theorem rleDecompressRaw_rleCompress (data : List ℤ) :
    rleDecompressRaw (rleCompress data) = data := by
  cases data with
  | nil => rfl
  | cons x xs =>
      rw [rleCompress, rleCompressLoop_decompress]
      simp [rleDecompressRaw]

/-- Counterexample to C9 as stated: `rleDecompress` ends with
`new Float32Array(decompressed)`, which rounds every element to float32,
so the sequence `[16777217]` (`2 ^ 24 + 1`, not representable in the
24-bit float32 significand) comes back as `[16777216]`, not equal element
for element to the input. -/
theorem claim_C9_counterexample :
    rleDecompress (rleCompress [(16777217 : ℤ)]) = [F32.finite 16777216] ∧
    rleDecompress (rleCompress [(16777217 : ℤ)]) ≠ [F32.finite 16777217] := by
  have hval : rleDecompress (rleCompress [(16777217 : ℤ)]) =
      [toFloat32 16777217] := rfl
  rw [hval, toFloat32_16777217]
  exact ⟨rfl, by decide⟩

set_option maxRecDepth 8000 in
/-- C9 (amended).  For every finite sequence all of whose elements are
exactly representable as (finite) float32 values — in particular every
integer of magnitude at most `2 ^ 24` — decompressing the compression
returns the sequence element for element; the empty sequence compresses
to the empty output and decompresses back to it; a run of 300 equal
elements is split into a 255-record and a 45-record and still
round-trips.  In general the loss is exactly the element-wise float32
rounding of the final `new Float32Array(decompressed)`. -/
theorem claim_C9_rle_roundtrip :
    (∀ data : List ℤ, (∀ v ∈ data, toFloat32 v = F32.finite v) →
      rleDecompress (rleCompress data) = data.map F32.finite) ∧
    rleCompress ([] : List ℤ) = [] ∧
    rleDecompress (rleCompress ([] : List ℤ)) = [] ∧
    rleCompress (List.replicate 300 (7 : ℤ)) = [(7, 255), (7, 45)] ∧
    rleDecompress (rleCompress (List.replicate 300 (7 : ℤ))) =
      List.replicate 300 (F32.finite 7) := by
  refine ⟨?_, rfl, rfl, by decide, ?_⟩
  · intro data h
    unfold rleDecompress
    rw [rleDecompressRaw_rleCompress]
    exact List.map_congr_left h
  · unfold rleDecompress
    rw [rleDecompressRaw_rleCompress, List.map_replicate,
      toFloat32_small 7 (by norm_num)]

/-- Witness for C9 (amended) on a small float32-exact sequence with a
repeated element. -/
theorem claim_C9_rle_roundtrip_witness :
    rleDecompress (rleCompress [(5 : ℤ), 5, 9]) =
      List.map F32.finite [(5 : ℤ), 5, 9] :=
  claim_C9_rle_roundtrip.1 [5, 5, 9] (by
    intro v hv
    apply toFloat32_small
    simp only [List.mem_cons, List.not_mem_nil, or_false] at hv
    rcases hv with rfl | rfl | rfl <;> norm_num)

/-! ## C10: Float32Array / binary-string round-trip -/

theorem reFloat32_lt (w : ℕ) : reFloat32 w < 2 ^ 32 := by
  unfold reFloat32
  split
  · decide
  · exact Nat.mod_lt w (by norm_num)

theorem float32ArrayToBinaryString_cons (w : ℕ) (xs : List ℕ) :
    float32ArrayToBinaryString (w :: xs) =
      toBytes32 (reFloat32 w) ++ float32ArrayToBinaryString xs := by
  simp only [float32ArrayToBinaryString, List.flatMap_cons]

theorem binaryStringToFloat32Array_cons4 (b0 b1 b2 b3 : ℕ) (rest : List ℕ) :
    binaryStringToFloat32Array (b0 :: b1 :: b2 :: b3 :: rest) =
      (b0 % 256 + 256 * (b1 % 256) + 256 ^ 2 * (b2 % 256) + 256 ^ 3 * (b3 % 256))
        :: binaryStringToFloat32Array rest := rfl

theorem binaryString_roundtrip_map (xs : List ℕ) :
    binaryStringToFloat32Array (float32ArrayToBinaryString xs) =
      xs.map reFloat32 := by
  induction xs with
  | nil => rfl
  | cons w xs ih =>
      have hw : reFloat32 w < 2 ^ 32 := reFloat32_lt w
      rw [float32ArrayToBinaryString_cons]
      simp only [toBytes32, List.cons_append, List.nil_append]
      rw [binaryStringToFloat32Array_cons4, ih, List.map_cons]
      congr 1
      omega

/-- Counterexample to C10 as stated: a Float32Array holding the signalling
NaN bit pattern `0x7F800001` does not round-trip bit-identically — reading
the element as a JavaScript Number collapses every NaN payload to the one
NaN value, and re-storing it writes the canonical quiet NaN `0x7FC00000`. -/
theorem claim_C10_counterexample :
    binaryStringToFloat32Array (float32ArrayToBinaryString [0x7F800001]) =
        [0x7FC00000] ∧
    binaryStringToFloat32Array (float32ArrayToBinaryString [0x7F800001]) ≠
        [0x7F800001] := by
  constructor
  · decide
  · decide

/-- C10 (amended).  The byte-per-character serialization round-trips
bit-identically for every Float32Array none of whose element bit patterns
is a NaN, and it always preserves the element count; NaN payloads are
canonicalised to the quiet NaN `0x7FC00000`. -/
theorem claim_C10_binary_roundtrip :
    (∀ xs : List ℕ, (∀ w ∈ xs, w < 2 ^ 32 ∧ isNaN32 w = false) →
      binaryStringToFloat32Array (float32ArrayToBinaryString xs) = xs) ∧
    (∀ xs : List ℕ,
      (binaryStringToFloat32Array (float32ArrayToBinaryString xs)).length =
        xs.length) := by
  constructor
  · intro xs hxs
    rw [binaryString_roundtrip_map]
    induction xs with
    | nil => rfl
    | cons w xs ih =>
        have hw := hxs w (List.mem_cons_self w xs)
        rw [List.map_cons, ih fun v hv => hxs v (List.mem_cons_of_mem w hv)]
        congr 1
        unfold reFloat32
        rw [if_neg (by simp [hw.2]), Nat.mod_eq_of_lt hw.1]
  · intro xs
    rw [binaryString_roundtrip_map, List.length_map]

/-- Witness for C10 (amended) on the patterns of 1.0f and 0.0f. -/
theorem claim_C10_binary_roundtrip_witness :
    binaryStringToFloat32Array
        (float32ArrayToBinaryString [0x3F800000, 0]) = [0x3F800000, 0] :=
  claim_C10_binary_roundtrip.1 [0x3F800000, 0] (by decide)

/-! ## C3: seeded deterministic initialization -/

theorem initCells_length (k : ℕ) : ∀ a : ℕ, (initCells a k).length = k := by
  induction k with
  | zero => intro a; rfl
  | succ k ih => intro a; simp [initCells, ih]

theorem initCells_getElem? (k : ℕ) :
    ∀ (a i : ℕ), i < k →
      (initCells a k)[i]? =
        some { density := clamp (mulberryMix (a + (3 * i + 1) * mulberryC)) 0 1
               temperature := clamp (mulberryMix (a + (3 * i + 2) * mulberryC)) 0 1
               magic := clamp (mulberryMix (a + (3 * i + 3) * mulberryC) * (1 / 2)) 0 1
               organic := clamp 0 0 1 } := by
  induction k with
  | zero => intro a i hi; omega
  | succ k ih =>
      intro a i hi
      cases i with
      | zero =>
          simp [initCells, mulberry32Next]
          ring_nf
          exact ⟨trivial, trivial⟩
      | succ i =>
          have hi' : i < k := by omega
          simp only [initCells, mulberry32Next, List.getElem?_cons_succ]
          rw [ih (a + mulberryC + mulberryC + mulberryC) i hi']
          have h1 : a + mulberryC + mulberryC + mulberryC + (3 * i + 1) * mulberryC =
              a + (3 * (i + 1) + 1) * mulberryC := by ring
          have h2 : a + mulberryC + mulberryC + mulberryC + (3 * i + 2) * mulberryC =
              a + (3 * (i + 1) + 2) * mulberryC := by ring
          have h3 : a + mulberryC + mulberryC + mulberryC + (3 * i + 3) * mulberryC =
              a + (3 * (i + 1) + 3) * mulberryC := by ring
          rw [h1, h2, h3]

theorem initCells_mem_inUnitRange (k : ℕ) :
    ∀ (a : ℕ) (v : AttributeVector), v ∈ initCells a k → inUnitRange v := by
  induction k with
  | zero => intro a v hv; simp [initCells] at hv
  | succ k ih =>
      intro a v hv
      simp only [initCells, List.mem_cons] at hv
      rcases hv with rfl | hv
      · exact ⟨⟨clamp_nonneg _, clamp_le_one _⟩, ⟨clamp_nonneg _, clamp_le_one _⟩,
          ⟨clamp_nonneg _, clamp_le_one _⟩, ⟨clamp_nonneg _, clamp_le_one _⟩⟩
      · exact ih _ v hv

/-- C3.  `initialize(seed)` fills every cell deterministically from the
Mulberry32 stream seeded by `seed`, in stream order
`density = rand()`, `temperature = rand()`, `magic = rand() * 0.5`,
`organic = 0`, each channel clamped to [0,1]; and two calls with the same
seed produce identical grids. -/
theorem claim_C3_initialize (width height seed i : ℕ)
    (hi : i < width * height) :
    (initializeSimulation width height seed).length = width * height ∧
    (initializeSimulation width height seed)[i]? =
      some { density := clamp (randStream seed (3 * i)) 0 1
             temperature := clamp (randStream seed (3 * i + 1)) 0 1
             magic := clamp (randStream seed (3 * i + 2) * (1 / 2)) 0 1
             organic := clamp 0 0 1 } ∧
    (∀ v ∈ initializeSimulation width height seed, inUnitRange v) ∧
    (∀ seed₂, seed₂ = seed →
      initializeSimulation width height seed₂ =
        initializeSimulation width height seed) := by
  refine ⟨initCells_length _ _, ?_, ?_, ?_⟩
  · rw [initializeSimulation, initCells_getElem? _ _ _ hi]
    have e1 : randStream seed (3 * i) = mulberryMix (seed + (3 * i + 1) * mulberryC) := rfl
    have e2 : randStream seed (3 * i + 1) =
        mulberryMix (seed + (3 * i + 2) * mulberryC) := rfl
    have e3 : randStream seed (3 * i + 2) =
        mulberryMix (seed + (3 * i + 3) * mulberryC) := rfl
    rw [e1, e2, e3]
  · exact fun v hv => initCells_mem_inUnitRange _ _ v hv
  · intro seed₂ h
    rw [h]

/-- Witness for C3 on a 2-by-1 grid with seed 7, at cell index 1. -/
theorem claim_C3_initialize_witness :
    (initializeSimulation 2 1 7).length = 2 * 1 ∧
    (initializeSimulation 2 1 7)[1]? =
      some { density := clamp (randStream 7 (3 * 1)) 0 1
             temperature := clamp (randStream 7 (3 * 1 + 1)) 0 1
             magic := clamp (randStream 7 (3 * 1 + 2) * (1 / 2)) 0 1
             organic := clamp 0 0 1 } ∧
    (∀ v ∈ initializeSimulation 2 1 7, inUnitRange v) ∧
    (∀ seed₂, seed₂ = 7 →
      initializeSimulation 2 1 seed₂ = initializeSimulation 2 1 7) :=
  claim_C3_initialize 2 1 7 1 (by norm_num)

/-! ## Clock and loop lemmas -/

theorem TICK_INTERVAL_pos : 0 < TICK_INTERVAL := by norm_num [TICK_INTERVAL]

theorem season_total_eq : SEASON_TOTAL_DURATION = 2592000 := rfl

theorem stepYear_lastTickTime (s : SimState) :
    (stepYear s).lastTickTime = s.lastTickTime := by
  unfold stepYear; split <;> rfl

theorem stepYear_attempts (s : SimState) : (stepYear s).attempts = s.attempts := by
  unfold stepYear; split <;> rfl

theorem stepYear_ticsCount (s : SimState) : (stepYear s).ticsCount = s.ticsCount := by
  unfold stepYear; split <;> rfl

theorem stepYear_swapCount (s : SimState) : (stepYear s).swapCount = s.swapCount := by
  unfold stepYear; split <;> rfl

theorem stepYear_errorsLogged (s : SimState) :
    (stepYear s).errorsLogged = s.errorsLogged := by
  unfold stepYear; split <;> rfl

theorem doTick_lastTickTime (s : SimState) :
    (doTick s).lastTickTime = s.lastTickTime + TICK_INTERVAL := by
  unfold doTick swapBuffers
  rw [stepYear_lastTickTime]

theorem doTick_attempts (s : SimState) : (doTick s).attempts = s.attempts + 1 := by
  unfold doTick swapBuffers
  rw [stepYear_attempts]

theorem doTick_ticsCount (s : SimState) : (doTick s).ticsCount = s.ticsCount + 1 := by
  unfold doTick swapBuffers
  rw [stepYear_ticsCount]

theorem doTick_swapCount (s : SimState) : (doTick s).swapCount = s.swapCount + 1 := by
  unfold doTick swapBuffers
  rw [stepYear_swapCount]

theorem doTick_errorsLogged (s : SimState) :
    (doTick s).errorsLogged = s.errorsLogged := by
  unfold doTick swapBuffers
  rw [stepYear_errorsLogged]

theorem doTickNoSwap_lastTickTime (s : SimState) :
    (doTickNoSwap s).lastTickTime = s.lastTickTime + TICK_INTERVAL := by
  unfold doTickNoSwap
  rw [stepYear_lastTickTime]

theorem doTickNoSwap_attempts (s : SimState) :
    (doTickNoSwap s).attempts = s.attempts + 1 := by
  unfold doTickNoSwap
  rw [stepYear_attempts]

theorem doTickNoSwap_swapCount (s : SimState) :
    (doTickNoSwap s).swapCount = s.swapCount := by
  unfold doTickNoSwap
  rw [stepYear_swapCount]

theorem iterate_doTick_lastTickTime (n : ℕ) :
    ∀ s : SimState, (doTick^[n] s).lastTickTime =
      s.lastTickTime + (n : ℚ) * TICK_INTERVAL := by
  induction n with
  | zero => intro s; simp
  | succ n ih =>
      intro s
      rw [Function.iterate_succ_apply, ih, doTick_lastTickTime]
      push_cast
      ring

theorem iterate_doTick_attempts (n : ℕ) :
    ∀ s : SimState, (doTick^[n] s).attempts = s.attempts + n := by
  induction n with
  | zero => intro s; simp
  | succ n ih =>
      intro s
      rw [Function.iterate_succ_apply, ih, doTick_attempts]
      omega

theorem iterate_doTick_ticsCount (n : ℕ) :
    ∀ s : SimState, (doTick^[n] s).ticsCount = s.ticsCount + n := by
  induction n with
  | zero => intro s; simp
  | succ n ih =>
      intro s
      rw [Function.iterate_succ_apply, ih, doTick_ticsCount]
      omega

theorem iterate_doTick_swapCount (n : ℕ) :
    ∀ s : SimState, (doTick^[n] s).swapCount = s.swapCount + n := by
  induction n with
  | zero => intro s; simp
  | succ n ih =>
      intro s
      rw [Function.iterate_succ_apply, ih, doTick_swapCount]
      omega

theorem iterate_doTick_errorsLogged (n : ℕ) :
    ∀ s : SimState, (doTick^[n] s).errorsLogged = s.errorsLogged := by
  induction n with
  | zero => intro s; simp
  | succ n ih =>
      intro s
      rw [Function.iterate_succ_apply, ih, doTick_errorsLogged]

theorem iterate_doTickNoSwap_lastTickTime (n : ℕ) :
    ∀ s : SimState, (doTickNoSwap^[n] s).lastTickTime =
      s.lastTickTime + (n : ℚ) * TICK_INTERVAL := by
  induction n with
  | zero => intro s; simp
  | succ n ih =>
      intro s
      rw [Function.iterate_succ_apply, ih, doTickNoSwap_lastTickTime]
      push_cast
      ring

theorem iterate_doTickNoSwap_attempts (n : ℕ) :
    ∀ s : SimState, (doTickNoSwap^[n] s).attempts = s.attempts + n := by
  induction n with
  | zero => intro s; simp
  | succ n ih =>
      intro s
      rw [Function.iterate_succ_apply, ih, doTickNoSwap_attempts]
      omega

theorem iterate_doTickNoSwap_swapCount (n : ℕ) :
    ∀ s : SimState, (doTickNoSwap^[n] s).swapCount = s.swapCount := by
  induction n with
  | zero => intro s; simp
  | succ n ih =>
      intro s
      rw [Function.iterate_succ_apply, ih, doTickNoSwap_swapCount]

theorem stepYear_year (s : SimState)
    (h : s.ticksIntoYear < SEASON_TOTAL_DURATION) :
    (stepYear s).ticksIntoYear = (s.ticksIntoYear + 1) % SEASON_TOTAL_DURATION ∧
    (stepYear s).currentYear =
      s.currentYear + (s.ticksIntoYear + 1) / SEASON_TOTAL_DURATION := by
  rw [season_total_eq] at h ⊢
  unfold stepYear
  rw [season_total_eq]
  split
  · refine ⟨?_, ?_⟩ <;> (show _ = _; dsimp only; omega)
  · refine ⟨?_, ?_⟩ <;> (show _ = _; dsimp only; omega)

theorem doTick_year (s : SimState) (h : s.ticksIntoYear < SEASON_TOTAL_DURATION) :
    (doTick s).ticksIntoYear = (s.ticksIntoYear + 1) % SEASON_TOTAL_DURATION ∧
    (doTick s).currentYear =
      s.currentYear + (s.ticksIntoYear + 1) / SEASON_TOTAL_DURATION := by
  have h' := stepYear_year
    { s with attempts := s.attempts + 1
             lastTickTime := s.lastTickTime + TICK_INTERVAL
             ticsCount := s.ticsCount + 1 } h
  exact ⟨h'.1, h'.2⟩

theorem iterate_doTick_year (n : ℕ) :
    ∀ s : SimState, s.ticksIntoYear < SEASON_TOTAL_DURATION →
      (doTick^[n] s).ticksIntoYear =
          (s.ticksIntoYear + n) % SEASON_TOTAL_DURATION ∧
      (doTick^[n] s).currentYear =
          s.currentYear + (s.ticksIntoYear + n) / SEASON_TOTAL_DURATION := by
  induction n with
  | zero =>
      intro s h
      rw [season_total_eq] at h ⊢
      simp only [Function.iterate_zero, id_eq]
      omega
  | succ n ih =>
      intro s h
      rw [Function.iterate_succ_apply']
      have hlt : (doTick^[n] s).ticksIntoYear < SEASON_TOTAL_DURATION := by
        rw [(ih s h).1, season_total_eq]
        omega
      obtain ⟨hy1, hy2⟩ := doTick_year (doTick^[n] s) hlt
      rw [hy1, hy2, (ih s h).1, (ih s h).2, season_total_eq]
      rw [season_total_eq] at h
      omega

theorem numPendingTicks_pos_iff (t : ℚ) (s : SimState) :
    1 ≤ numPendingTicks t s ↔ TICK_INTERVAL ≤ t - s.lastTickTime := by
  unfold numPendingTicks
  rw [show (1 : ℕ) ≤ (⌊(t - s.lastTickTime) / TICK_INTERVAL⌋).toNat ↔
      (1 : ℤ) ≤ ⌊(t - s.lastTickTime) / TICK_INTERVAL⌋ by omega]
  rw [Int.le_floor]
  push_cast
  rw [le_div_iff₀ TICK_INTERVAL_pos, one_mul]

theorem numPendingTicks_step (t : ℚ) (s s' : SimState)
    (h : s'.lastTickTime = s.lastTickTime + TICK_INTERVAL) :
    numPendingTicks t s' = numPendingTicks t s - 1 := by
  unfold numPendingTicks
  rw [h]
  have hI : TICK_INTERVAL ≠ 0 := ne_of_gt TICK_INTERVAL_pos
  have : (t - (s.lastTickTime + TICK_INTERVAL)) / TICK_INTERVAL =
      (t - s.lastTickTime) / TICK_INTERVAL - 1 := by
    rw [show t - (s.lastTickTime + TICK_INTERVAL) =
        t - s.lastTickTime - TICK_INTERVAL by ring, sub_div, div_self hI]
  rw [this, Int.floor_sub_one]
  omega

theorem numPendingTicks_add_mul (s : SimState) (n : ℕ) :
    numPendingTicks (s.lastTickTime + (n : ℚ) * TICK_INTERVAL) s = n := by
  unfold numPendingTicks
  have hI : TICK_INTERVAL ≠ 0 := ne_of_gt TICK_INTERVAL_pos
  rw [add_sub_cancel_left, mul_div_assoc, div_self hI, mul_one, Int.floor_natCast]
  omega

theorem tickLoopGo_noFail (body : SimState → SimState) (n : ℕ) :
    ∀ s : SimState, tickLoopGo body (fun _ => false) n s = (body^[n] s, false) := by
  induction n with
  | zero => intro s; rfl
  | succ n ih =>
      intro s
      rw [tickLoopGo, if_neg (by simp)]
      rw [ih, Function.iterate_succ_apply]

theorem advance_eq_iterate (t : ℚ) (s : SimState) :
    advance t s = doTick^[numPendingTicks t s] s := by
  unfold advance simulateFrame tickLoop
  rw [tickLoopGo_noFail]
  rfl

theorem advanceV2_eq_iterate (t : ℚ) (s : SimState) :
    advanceV2 t s = swapBuffers (doTickNoSwap^[numPendingTicks t s] s) := by
  unfold advanceV2 simulateFrameV2 tickLoop
  rw [tickLoopGo_noFail]
  rfl

/-- Faithfulness of the embedding of the catch-up loop: `tickLoop`
satisfies the guard-and-unfold equation of
`while (currentTime - lastTickTime >= TICK_INTERVAL) body`, for any body
that advances `lastTickTime` by one TICK_INTERVAL per iteration. -/
theorem tickLoop_eq (body : SimState → SimState)
    (hbody : ∀ s, (body s).lastTickTime = s.lastTickTime + TICK_INTERVAL)
    (failsAt : ℕ → Bool) (t : ℚ) (s : SimState) :
    tickLoop body failsAt t s =
      if TICK_INTERVAL ≤ t - s.lastTickTime then
        if failsAt s.attempts then ({ s with attempts := s.attempts + 1 }, true)
        else tickLoop body failsAt t (body s)
      else (s, false) := by
  by_cases hg : TICK_INTERVAL ≤ t - s.lastTickTime
  · rw [if_pos hg]
    have h1 : 1 ≤ numPendingTicks t s := (numPendingTicks_pos_iff t s).mpr hg
    obtain ⟨n, hn⟩ : ∃ n, numPendingTicks t s = n + 1 :=
      ⟨numPendingTicks t s - 1, by omega⟩
    unfold tickLoop
    rw [hn, tickLoopGo]
    rw [numPendingTicks_step t s (body s) (hbody s), hn]
    norm_num
  · rw [if_neg hg]
    have h0 : numPendingTicks t s = 0 := by
      by_contra hne
      exact hg ((numPendingTicks_pos_iff t s).mp (by omega))
    unfold tickLoop
    rw [h0]
    rfl

theorem foldl_advance_iterate (ts : List ℚ) :
    ∀ s : SimState, ∃ N : ℕ,
      ts.foldl (fun st τ => advance τ st) s = doTick^[N] s := by
  induction ts with
  | nil => intro s; exact ⟨0, rfl⟩
  | cons τ ts ih =>
      intro s
      obtain ⟨N, hN⟩ := ih (advance τ s)
      refine ⟨N + numPendingTicks τ s, ?_⟩
      rw [List.foldl_cons, hN, advance_eq_iterate, ← Function.iterate_add_apply]

theorem swapBuffers_attempts (s : SimState) :
    (swapBuffers s).attempts = s.attempts := rfl

theorem swapBuffers_swapCount (s : SimState) :
    (swapBuffers s).swapCount = s.swapCount + 1 := rfl

/-- Running the first `j` failure-free iterations of the loop body just
iterates `doTick` `j` times. -/
theorem tickLoopGo_okRun (f : ℕ → Bool) (j : ℕ) :
    ∀ (n : ℕ) (s : SimState), j ≤ n →
      (∀ i < j, f (s.attempts + i) = false) →
      tickLoopGo doTick f n s = tickLoopGo doTick f (n - j) (doTick^[j] s) := by
  induction j with
  | zero =>
      intro n s _ _
      simp
  | succ j ihj =>
      intro n s hj hf
      obtain ⟨m, rfl⟩ : ∃ m, n = m + 1 := ⟨n - 1, by omega⟩
      rw [tickLoopGo]
      have hf0 : f s.attempts = false := by
        have := hf 0 (Nat.succ_pos j)
        rwa [Nat.add_zero] at this
      rw [if_neg (by rw [hf0]; simp)]
      have hstep := ihj m (doTick s) (by omega) ?_
      · rw [hstep, ← Function.iterate_succ_apply]
        congr 1
        omega
      · intro i hi
        rw [doTick_attempts, Nat.add_assoc, Nat.add_comm 1 i]
        exact hf (i + 1) (by omega)

/-- A throw at the `j`-th update invocation of an advance call: the `j`
completed ticks stand, the failing invocation changes nothing else (no
swap, `lastTickTime` untouched), the error is logged once, and the
remaining pending ticks of that call are not executed. -/
theorem simulateFrame_fail (f : ℕ → Bool) (t : ℚ) (s : SimState) (j : ℕ)
    (hj : j < numPendingTicks t s)
    (hpre : ∀ i < j, f (s.attempts + i) = false)
    (hf : f (s.attempts + j) = true) :
    simulateFrame f t s =
      { doTick^[j] s with attempts := s.attempts + j + 1
                          errorsLogged := s.errorsLogged + 1 } := by
  obtain ⟨m, hm⟩ : ∃ m, numPendingTicks t s - j = m + 1 :=
    ⟨numPendingTicks t s - j - 1, by omega⟩
  have htl : tickLoop doTick f t s =
      ({ doTick^[j] s with attempts := (doTick^[j] s).attempts + 1 }, true) := by
    unfold tickLoop
    rw [tickLoopGo_okRun f j (numPendingTicks t s) s (le_of_lt hj) hpre]
    rw [hm, tickLoopGo, if_pos (by rw [iterate_doTick_attempts]; exact hf)]
  unfold simulateFrame
  rw [htl]
  simp only [if_pos rfl]
  rw [show ({ doTick^[j] s with
        attempts := (doTick^[j] s).attempts + 1 } : SimState).errorsLogged =
      (doTick^[j] s).errorsLogged from rfl]
  rw [iterate_doTick_errorsLogged, iterate_doTick_attempts]
  simp

/-- An advance call whose update invocations all succeed is plain
iteration of the tick body. -/
theorem simulateFrame_noFail (f : ℕ → Bool) (t : ℚ) (s : SimState)
    (hok : ∀ i < numPendingTicks t s, f (s.attempts + i) = false) :
    simulateFrame f t s = doTick^[numPendingTicks t s] s := by
  have htl : tickLoop doTick f t s = (doTick^[numPendingTicks t s] s, false) := by
    unfold tickLoop
    rw [tickLoopGo_okRun f (numPendingTicks t s) (numPendingTicks t s) s le_rfl hok]
    rw [Nat.sub_self]
    rfl
  unfold simulateFrame
  rw [htl]
  simp

/-! ## C4: tick accounting -/

/-- C4.  A single advance call with a wall-time delta of exactly 10 tick
intervals runs exactly 10 ticks (tick counters and attempts increase by
10, `ticksIntoYear` by 10 short of a rollover); `lastTickTime` advances
only by whole multiples of the interval, so the fractional remainder
carries over; and any sequence of advance calls from a fresh clock whose
ticks total exactly one year increments `currentYear` exactly once. -/
theorem claim_C4_tick_accounting (s : SimState) (t : ℚ) (ts : List ℚ) :
    ((advance (s.lastTickTime + 10 * TICK_INTERVAL) s).ticsCount =
        s.ticsCount + 10 ∧
      (advance (s.lastTickTime + 10 * TICK_INTERVAL) s).attempts =
        s.attempts + 10 ∧
      (advance (s.lastTickTime + 10 * TICK_INTERVAL) s).lastTickTime =
        s.lastTickTime + 10 * TICK_INTERVAL) ∧
    (s.ticksIntoYear + 10 < SEASON_TOTAL_DURATION →
      (advance (s.lastTickTime + 10 * TICK_INTERVAL) s).ticksIntoYear =
        s.ticksIntoYear + 10) ∧
    (∃ n : ℕ, (advance t s).lastTickTime =
        s.lastTickTime + (n : ℚ) * TICK_INTERVAL) ∧
    (s.ticksIntoYear = 0 → s.currentYear = 0 →
      (ts.foldl (fun st τ => advance τ st) s).attempts =
        s.attempts + SEASON_TOTAL_DURATION →
      (ts.foldl (fun st τ => advance τ st) s).currentYear = 1) := by
  have h10 : numPendingTicks (s.lastTickTime + 10 * TICK_INTERVAL) s = 10 := by
    have := numPendingTicks_add_mul s 10
    norm_num at this
    exact this
  have hA : advance (s.lastTickTime + 10 * TICK_INTERVAL) s = doTick^[10] s := by
    rw [advance_eq_iterate, h10]
  refine ⟨⟨?_, ?_, ?_⟩, ?_, ?_, ?_⟩
  · rw [hA, iterate_doTick_ticsCount]
  · rw [hA, iterate_doTick_attempts]
  · rw [hA, iterate_doTick_lastTickTime]
    norm_num
  · intro hy
    have hlt : s.ticksIntoYear < SEASON_TOTAL_DURATION := by omega
    rw [hA, (iterate_doTick_year 10 s hlt).1, Nat.mod_eq_of_lt hy]
  · refine ⟨numPendingTicks t s, ?_⟩
    rw [advance_eq_iterate, iterate_doTick_lastTickTime]
  · intro h0 hc hsum
    obtain ⟨N, hN⟩ := foldl_advance_iterate ts s
    rw [hN, iterate_doTick_attempts] at hsum
    have hNL : N = SEASON_TOTAL_DURATION := by omega
    have hlt : s.ticksIntoYear < SEASON_TOTAL_DURATION := by
      rw [h0, season_total_eq]
      norm_num
    rw [hN, (iterate_doTick_year N s hlt).2, h0, hc, hNL, season_total_eq]

/-- Witness for C4: ten intervals from a fresh clock run ten ticks, and a
single advance call worth exactly one year of ticks rolls the year once. -/
theorem claim_C4_tick_accounting_witness :
    (advance ((freshState 0).lastTickTime + 10 * TICK_INTERVAL)
        (freshState 0)).ticsCount = (freshState 0).ticsCount + 10 ∧
    (advance ((freshState 0).lastTickTime + 10 * TICK_INTERVAL)
        (freshState 0)).ticksIntoYear = (freshState 0).ticksIntoYear + 10 ∧
    (List.foldl (fun st τ => advance τ st) (freshState 0)
        [2592000 * TICK_INTERVAL]).currentYear = 1 := by
  have hattempts : (List.foldl (fun st τ => advance τ st) (freshState 0)
      [2592000 * TICK_INTERVAL]).attempts =
        (freshState 0).attempts + SEASON_TOTAL_DURATION := by
    have hfold : List.foldl (fun st τ => advance τ st) (freshState 0)
        [2592000 * TICK_INTERVAL] =
          advance (2592000 * TICK_INTERVAL) (freshState 0) := by
      rw [List.foldl_cons, List.foldl_nil]
    have hnum : numPendingTicks (2592000 * TICK_INTERVAL) (freshState 0) =
        2592000 := by
      have := numPendingTicks_add_mul (freshState 0) 2592000
      norm_num [freshState] at this ⊢
      exact this
    rw [hfold, advance_eq_iterate, hnum, iterate_doTick_attempts, season_total_eq]
  exact ⟨(claim_C4_tick_accounting (freshState 0) 0 [2592000 * TICK_INTERVAL]).1.1,
    (claim_C4_tick_accounting (freshState 0) 0 [2592000 * TICK_INTERVAL]).2.1
      (by rw [season_total_eq]; norm_num [freshState]),
    (claim_C4_tick_accounting (freshState 0) 0 [2592000 * TICK_INTERVAL]).2.2.2
      rfl rfl hattempts⟩

/-! ## C5: year rollover invariant -/

/-- C5.  `yearLengthTicks` is 2,592,000 (the sum of the four season
durations); `ticksIntoYear` stays below it across any advance call;
driving exactly that many ticks from a fresh clock yields
`currentYear = 1` and `ticksIntoYear = 0`; and a tick that reaches the
bound subtracts it and increments `currentYear`. -/
theorem claim_C5_year_rollover :
    SEASON_TOTAL_DURATION = 2592000 ∧
    (∀ (t : ℚ) (s : SimState), s.ticksIntoYear < SEASON_TOTAL_DURATION →
      (advance t s).ticksIntoYear < SEASON_TOTAL_DURATION) ∧
    (∀ s : SimState, s.ticksIntoYear = 0 → s.currentYear = 0 →
      (doTick^[SEASON_TOTAL_DURATION] s).currentYear = 1 ∧
      (doTick^[SEASON_TOTAL_DURATION] s).ticksIntoYear = 0) ∧
    (∀ s : SimState, s.ticksIntoYear + 1 ≥ SEASON_TOTAL_DURATION →
      s.ticksIntoYear < SEASON_TOTAL_DURATION →
      (doTick s).ticksIntoYear = s.ticksIntoYear + 1 - SEASON_TOTAL_DURATION ∧
      (doTick s).currentYear = s.currentYear + 1) := by
  refine ⟨rfl, ?_, ?_, ?_⟩
  · intro t s hlt
    rw [advance_eq_iterate, (iterate_doTick_year _ s hlt).1]
    exact Nat.mod_lt _ (by rw [season_total_eq]; norm_num)
  · intro s h0 hc
    have hlt : s.ticksIntoYear < SEASON_TOTAL_DURATION := by
      rw [h0, season_total_eq]
      norm_num
    obtain ⟨h1, h2⟩ := iterate_doTick_year SEASON_TOTAL_DURATION s hlt
    rw [season_total_eq] at h1 h2 ⊢
    rw [h1, h2, h0, hc]
    omega
  · intro s hge hlt
    obtain ⟨h1, h2⟩ := doTick_year s hlt
    rw [season_total_eq] at hge hlt h1 h2 ⊢
    rw [h1, h2]
    omega

/-- Witness for C5 at a fresh clock and at the last tick of a year. -/
theorem claim_C5_year_rollover_witness :
    (advance (17 : ℚ) (freshState 0)).ticksIntoYear < SEASON_TOTAL_DURATION ∧
    (doTick^[SEASON_TOTAL_DURATION] (freshState 0)).currentYear = 1 ∧
    (doTick^[SEASON_TOTAL_DURATION] (freshState 0)).ticksIntoYear = 0 ∧
    (doTick { freshState 0 with ticksIntoYear := 2591999 }).ticksIntoYear =
      2591999 + 1 - SEASON_TOTAL_DURATION ∧
    (doTick { freshState 0 with ticksIntoYear := 2591999 }).currentYear =
      (freshState 0).currentYear + 1 := by
  refine ⟨claim_C5_year_rollover.2.1 17 (freshState 0)
      (by rw [season_total_eq]; norm_num [freshState]), ?_, ?_, ?_, ?_⟩
  · exact (claim_C5_year_rollover.2.2.1 (freshState 0) rfl rfl).1
  · exact (claim_C5_year_rollover.2.2.1 (freshState 0) rfl rfl).2
  · exact (claim_C5_year_rollover.2.2.2 { freshState 0 with ticksIntoYear := 2591999 }
      (by rw [season_total_eq]) (by rw [season_total_eq]; norm_num)).1
  · exact (claim_C5_year_rollover.2.2.2 { freshState 0 with ticksIntoYear := 2591999 }
      (by rw [season_total_eq]) (by rw [season_total_eq]; norm_num)).2

/-! ## C6: buffer swap per tick -/

/-- Counterexample to C6 as stated: in the `simulate` revision of
src/main.js lines 1410-1468 (and 701-759) the swap sits after the catch-up
loop, so an advance call that runs 2 ticks swaps exactly once, not
twice. -/
theorem claim_C6_counterexample :
    (advanceV2 ((freshState 0).lastTickTime + 2 * TICK_INTERVAL)
        (freshState 0)).attempts = 2 ∧
    (advanceV2 ((freshState 0).lastTickTime + 2 * TICK_INTERVAL)
        (freshState 0)).swapCount = 1 ∧
    ¬(advanceV2 ((freshState 0).lastTickTime + 2 * TICK_INTERVAL)
        (freshState 0)).swapCount = 2 := by
  have h2 : numPendingTicks ((freshState 0).lastTickTime + 2 * TICK_INTERVAL)
      (freshState 0) = 2 := by
    have := numPendingTicks_add_mul (freshState 0) 2
    norm_num at this
    exact this
  have hA : advanceV2 ((freshState 0).lastTickTime + 2 * TICK_INTERVAL)
      (freshState 0) = swapBuffers (doTickNoSwap^[2] (freshState 0)) := by
    rw [advanceV2_eq_iterate, h2]
  refine ⟨?_, ?_, ?_⟩
  · rw [hA, swapBuffers_attempts, iterate_doTickNoSwap_attempts]
    rfl
  · rw [hA, swapBuffers_swapCount, iterate_doTickNoSwap_swapCount]
    rfl
  · rw [hA, swapBuffers_swapCount, iterate_doTickNoSwap_swapCount]
    simp [freshState]

/-- C6 (amended).  In the primary `simulate` (src/main.js lines 325-347)
the buffer swap happens inside the catch-up loop, once per tick, after
that tick's update: an advance call that runs `k` ticks swaps exactly `k`
times.  In the revisions at lines 701-759 and 1410-1468 the single swap is
performed after the loop, once per advance call, regardless of the number
of ticks run (including zero). -/
theorem claim_C6_swap_per_tick :
    (∀ (t : ℚ) (s : SimState),
      (advance t s).swapCount = s.swapCount + numPendingTicks t s ∧
      (advance t s).attempts = s.attempts + numPendingTicks t s) ∧
    (∀ (t : ℚ) (s : SimState),
      (advanceV2 t s).swapCount = s.swapCount + 1 ∧
      (advanceV2 t s).attempts = s.attempts + numPendingTicks t s) := by
  constructor
  · intro t s
    rw [advance_eq_iterate]
    exact ⟨iterate_doTick_swapCount _ s, iterate_doTick_attempts _ s⟩
  · intro t s
    rw [advanceV2_eq_iterate]
    exact ⟨by rw [swapBuffers_swapCount, iterate_doTickNoSwap_swapCount],
      by rw [swapBuffers_attempts, iterate_doTickNoSwap_attempts]⟩

/-! ## C7: exception handling at the tick boundary -/

/-- Counterexample to C7 as stated: with two ticks pending and the first
update invocation throwing, the catch in `simulate` (which wraps the whole
frame, not the single tick) abandons the rest of the catch-up loop — the
second tick is not attempted and no tick completes in that call
(`ticksIntoYear` stays 0, one attempt, one logged error), whereas a
per-tick catch that continues with the next tick would complete it
(`ticksIntoYear = 1`). -/
theorem claim_C7_counterexample :
    (simulateFrame (fun n => n == 0)
        ((freshState 0).lastTickTime + 2 * TICK_INTERVAL)
        (freshState 0)).ticksIntoYear = 0 ∧
    (simulateFrame (fun n => n == 0)
        ((freshState 0).lastTickTime + 2 * TICK_INTERVAL)
        (freshState 0)).attempts = 1 ∧
    (simulateFrame (fun n => n == 0)
        ((freshState 0).lastTickTime + 2 * TICK_INTERVAL)
        (freshState 0)).errorsLogged = 1 ∧
    ¬(simulateFrame (fun n => n == 0)
        ((freshState 0).lastTickTime + 2 * TICK_INTERVAL)
        (freshState 0)).ticksIntoYear = 1 := by
  have h2 : numPendingTicks ((freshState 0).lastTickTime + 2 * TICK_INTERVAL)
      (freshState 0) = 2 := by
    have := numPendingTicks_add_mul (freshState 0) 2
    norm_num at this
    exact this
  have hfail := simulateFrame_fail (fun n => n == 0)
    ((freshState 0).lastTickTime + 2 * TICK_INTERVAL) (freshState 0) 0
    (by rw [h2]; norm_num)
    (by intro i hi; exact absurd hi (Nat.not_lt_zero i))
    rfl
  rw [hfail]
  refine ⟨rfl, rfl, rfl, by decide⟩

/-- C7 (amended).  An exception inside a tick's update is caught at the
frame boundary of `simulate`, not per tick: the ticks already completed in
that call stand, the failing invocation changes nothing (no swap, tick
counters and `lastTickTime` untouched, so that tick is retried on the next
frame rather than skipped), the error is logged once, and the remaining
pending ticks of that call are abandoned; the exception never escapes
`simulate` (the function returns a state, and `requestAnimationFrame`
outside the `try` keeps the loop alive), and the buffer flag is only ever
flipped whole, never left half-swapped.  A call whose invocations all
succeed runs every pending tick. -/
theorem claim_C7_error_boundary :
    (∀ (f : ℕ → Bool) (t : ℚ) (s : SimState) (j : ℕ),
      j < numPendingTicks t s →
      (∀ i < j, f (s.attempts + i) = false) →
      f (s.attempts + j) = true →
      simulateFrame f t s =
        { doTick^[j] s with attempts := s.attempts + j + 1
                            errorsLogged := s.errorsLogged + 1 }) ∧
    (∀ (f : ℕ → Bool) (t : ℚ) (s : SimState),
      (∀ i < numPendingTicks t s, f (s.attempts + i) = false) →
      simulateFrame f t s = doTick^[numPendingTicks t s] s) :=
  ⟨simulateFrame_fail, simulateFrame_noFail⟩

/-- Witness for C7 (amended): three ticks pending, failure at the second
update invocation — one tick completes, the error is logged once and the
third tick is not attempted in that call. -/
theorem claim_C7_error_boundary_witness :
    simulateFrame (fun n => n == 1)
        ((freshState 0).lastTickTime + 3 * TICK_INTERVAL) (freshState 0) =
      { doTick^[1] (freshState 0) with
          attempts := (freshState 0).attempts + 1 + 1
          errorsLogged := (freshState 0).errorsLogged + 1 } := by
  have h3 : numPendingTicks ((freshState 0).lastTickTime + 3 * TICK_INTERVAL)
      (freshState 0) = 3 := by
    have := numPendingTicks_add_mul (freshState 0) 3
    norm_num at this
    exact this
  exact claim_C7_error_boundary.1 (fun n => n == 1)
    ((freshState 0).lastTickTime + 3 * TICK_INTERVAL) (freshState 0) 1
    (by rw [h3]; norm_num)
    (by intro i hi
        have h0 : i = 0 := by omega
        subst h0
        rfl)
    rfl

end PixelPhysics
